import Mathlib

/-
Verification development for the MOVPE xlsx overview generator
(`src/script.py`).  The pure decision logic of the script is embedded
shallowly:

  * a pandas DataFrame becomes a `Sheet`: an ordered list of named
    columns, each column an ordered list of cells;
  * a cell is `null` (NaN), a string, or a number (modelled as `ℚ`;
    the script only ever divides integer-valued cells);
  * `fill_column` (script.py lines 11-30) returns `Option` — `none`
    models the uncaught KeyError pandas raises for an absent column;
  * `fill_calculated_cell` (lines 33-48) returns `Option` — `none`
    models the AttributeError/KeyError raised when a consulted field is
    absent or not a string;
  * the record-assembly loop of `generate_overview` (lines 85-105)
    becomes `assemble`, the dict comprehension of line 107 becomes
    `summaryDict`, and the merge-or-replace policy of lines 112-121
    becomes `mergeSummary`.
-/

namespace MOVPE

/-- A single spreadsheet cell: NaN, a string, or a number. -/
inductive Cell where
  | null : Cell
  | str : String → Cell
  | num : ℚ → Cell
deriving DecidableEq, Repr

/-- A loaded sheet: ordered list of named columns, each an ordered list
of cells (one pandas DataFrame). -/
structure Sheet where
  cols : List (String × List Cell)
deriving DecidableEq, Repr

/-- Column lookup, `sheet[header]`: the first column with the given
name, `none` when absent (pandas raises KeyError there). -/
def lookupCol (sheet : Sheet) (header : String) : Option (List Cell) :=
  (sheet.cols.find? (fun p => p.1 = header)).map Prod.snd

/-- `pd.isnull` on one cell. -/
def cellIsNull : Cell → Bool
  | Cell.null => true
  | _ => false

/-- Python `str(...)` of a cell value. -/
def cellStr : Cell → String
  | Cell.null => "nan"
  | Cell.str s => s
  | Cell.num q => toString q

/-- `fill_column` (script.py lines 11-30).  Looks the column up
(`none` = KeyError on an absent column); appends `"empty"` when the
column has zero rows or when `isnull().values.any()` holds, i.e. ANY
cell of the column is null; otherwise appends `str(col[0])`. -/
def fill_column (summary : List Cell) (sheet : Sheet) (header : String) : Option (List Cell) :=
  match lookupCol sheet header with
  | none => none
  | some [] => some (summary ++ [Cell.str "empty"])
  | some (c :: rest) =>
    if (c :: rest).any cellIsNull then some (summary ++ [Cell.str "empty"])
    else some (summary ++ [Cell.str (cellStr c)])

/-- Is the string nonempty and made only of decimal digits?  This is
the class of strings on which both `str.isnumeric` and `pd.to_numeric`
succeed.  Decimal digits (Unicode category Nd) are modelled by the
ASCII range: every Nd digit behaves exactly like an ASCII digit in both
`isnumeric` and `to_numeric`, so the class loses no behaviour. -/
def allDecimalDigits (s : String) : Bool :=
  !s.isEmpty && s.toList.all Char.isDigit

/-- Unicode characters outside the decimal digits that Python
`str.isnumeric` still accepts (categories No and Nl: vulgar fractions,
superscripts, Roman numerals), modelled by explicit representatives of
those categories.  A string containing one passes `isnumeric` yet makes
`float`/`pd.to_numeric` raise ValueError. -/
def numericNonDecimalChar (c : Char) : Bool :=
  c = '½' || c = '⅓' || c = '¼' || c = '¾' || c = '¹' || c = '²' || c = '³' || c = 'Ⅻ'

/-- Python `str.isnumeric`: nonempty and every character numeric — a
decimal digit or one of the wider Unicode numerics. -/
def strIsNumeric (s : String) : Bool :=
  !s.isEmpty && s.toList.all (fun c => c.isDigit || numericNonDecimalChar c)

/-- Numeric value of an all-digit string (`pd.to_numeric` on it). -/
def digitsToNat (s : String) : Nat :=
  s.toList.foldl (fun n c => 10 * n + (c.toNat - 48)) 0

/-- An assembled record: the single output row, an ordered mapping from
header name to cell value (a one-row DataFrame / python dict). -/
abbrev Record := List (String × Cell)

/-- `dataframe.loc[0, k]` read: first entry with the given key. -/
def getField (r : Record) (k : String) : Option Cell :=
  (r.find? (fun p => p.1 = k)).map Prod.snd

/-- `dataframe.loc[0, k] = v` / dict assignment: overwrite the value of
an existing key in place (keys are unique in every record the script
builds), else append the new pair at the end. -/
def setField : Record → String → Cell → Record
  | [], k, v => [(k, v)]
  | p :: rest, k, v => if p.1 = k then (k, v) :: rest else p :: setField rest k v

/-- `.isnumeric()` on a cell: only strings have the method — `none`
models the AttributeError raised on a float/NaN cell. -/
def cellIsNumeric : Cell → Option Bool
  | Cell.str s => some (strIsNumeric s)
  | _ => none

/-- `pd.to_numeric` on a cell: a decimal-digit string converts to its
value; a numeric-but-not-decimal string (such as "½") raises ValueError
(`none`).  The script reaches this call only on strings that passed
`isnumeric`, so the sign/decimal-point formats `float` would also parse
are unreachable here and not modelled. -/
def cellToNumeric : Cell → Option ℚ
  | Cell.str s => if allDecimalDigits s then some ((digitsToNat s : ℚ)) else none
  | Cell.num q => some q
  | Cell.null => none

/-- `fill_calculated_cell` (script.py lines 33-48).  Reads
`loc[0,'Thickness']` (a missing key or non-string cell is an error =
`none`); if it is numeric, reads `loc[0,'Growth Time']` (the Python
`and` short-circuits, so this lookup only happens then); if both are
numeric sets `Growth Rate` to their quotient, otherwise returns the
record unchanged. -/
def fill_calculated_cell (r : Record) : Option Record := do
  let t ← getField r "Thickness"
  let tb ← cellIsNumeric t
  if tb then do
    let g ← getField r "Growth Time"
    let gb ← cellIsNumeric g
    if gb then do
      let tv ← cellToNumeric t
      let gv ← cellToNumeric g
      some (setField r "Growth Rate" (Cell.num (tv / gv)))
    else some r
  else some r

/-- The three substrings scanned for in GrowthRun column names
(script.py line 96). -/
def quantities : List String := ["Bubbler Material", "Gas Cylinder Material", "Partial Pressure"]

/-- Char-list matching: does the second list start with the first? -/
def matchesAt : List Char → List Char → Bool
  | [], _ => true
  | _ :: _, [] => false
  | a :: l1, b :: l2 => a = b && matchesAt l1 l2

/-- Substring occurrence on char lists (Python `needle in haystack`). -/
def containsSub (needle : List Char) : List Char → Bool
  | [] => matchesAt needle []
  | b :: l2 => matchesAt needle (b :: l2) || containsSub needle l2

/-- Python `quantity in growthrun_header` for strings. -/
def strContainsSub (needle haystack : String) : Bool :=
  containsSub needle.toList haystack.toList

/-- One iteration of the inner quantity loop (script.py lines 96-100):
if the quantity occurs in the column name, append the name as a header
and, only when the column is non-empty, append its first cell as a
value.  Matching an empty column appends a header with NO value. -/
def scanQuantity (gr : Sheet) (name : String) (acc : List String × List Cell) (q : String) :
    List String × List Cell :=
  if strContainsSub q name then
    match lookupCol gr name with
    | some (c :: _) => (acc.1 ++ [name], acc.2 ++ [c])
    | some [] => (acc.1 ++ [name], acc.2)
    | none => (acc.1 ++ [name], acc.2)
  else acc

/-- The inner loop over all three quantities for one column name. -/
def scanStep (gr : Sheet) (acc : List String × List Cell) (name : String) :
    List String × List Cell :=
  quantities.foldl (scanQuantity gr name) acc

/-- The seven Overview fields extracted first (script.py line 85). -/
def baseHeaders : List String :=
  ["Sample", "Date", "Film", "Substrate", "Substrate T", "Carrier Gas", "Growth Time"]

/-- The record-assembly phase of `generate_overview`
(script.py lines 85-105): seven Overview fields, then Thickness and the
`"put calc here"` Growth Rate placeholder, then the dynamic GrowthRun
scan, then Phase, Collaborator and the `"put notes here"` placeholder.
Returns the parallel header and value lists; `none` models a KeyError
from any `fill_column` call on an absent column. -/
def assemble (overview gr afm hrxrd scut : Sheet) : Option (List String × List Cell) := do
  let d0 ← baseHeaders.foldlM (fun s h => fill_column s overview h) []
  let d1 ← fill_column d0 afm "Thickness"
  let d2 := d1 ++ [Cell.str "put calc here"]
  let hs1 := baseHeaders ++ ["Thickness", "Growth Rate"]
  let p := (gr.cols.map Prod.fst).foldl (scanStep gr) (hs1, d2)
  let d4 ← fill_column p.2 hrxrd "Phase"
  let d5 ← fill_column d4 scut "Collaborator"
  some (p.1 ++ ["Phase", "Collaborator", "Notes"], d5 ++ [Cell.str "put notes here"])

/-- The dict comprehension of script.py line 107:
`{key: value for key, value in zip(summary_headers, summary_data)}`.
`zip` truncates at the shorter list; a repeated key keeps its first
position and takes the last value, exactly as a Python dict does. -/
def summaryDict (pairs : List (String × Cell)) : Record :=
  pairs.foldl (fun d p => setField d p.1 p.2) []

/-- The persisted summary table: its column count and its rows. -/
structure SummaryTable where
  numCols : Nat
  rows : List Record
deriving Repr

/-- The merge-or-replace policy of `generate_overview`
(script.py lines 112-121): no prior file → table of just the new
record; prior file whose column count equals `len(summary_headers)` →
prior rows then the new record; mismatched count → just the new
record. -/
def mergeSummary (newRecord : Record) (headerCount : Nat) (prior : Option SummaryTable) :
    List Record :=
  match prior with
  | none => [newRecord]
  | some t => if t.numCols = headerCount then t.rows ++ [newRecord] else [newRecord]

/-- The in-memory pipeline for one run (script.py lines 85-111):
assemble the parallel lists, build the record dict, fill the calculated
Growth Rate cell. -/
def runPipeline (overview gr afm hrxrd scut : Sheet) : Option Record := do
  let p ← assemble overview gr afm hrxrd scut
  fill_calculated_cell (summaryDict (p.1.zip p.2))

/-- Does the named column exist and hold at least one row? -/
def colNonempty (gr : Sheet) (name : String) : Bool :=
  match lookupCol gr name with
  | some (_ :: _) => true
  | _ => false

/-- Well-formedness hypothesis of the dynamic scan: every GrowthRun
column whose name matches one of the scanned substrings is non-empty. -/
def matchedNonempty (gr : Sheet) : Bool :=
  (gr.cols.map Prod.fst).all
    (fun n => !(quantities.any (fun q => strContainsSub q n)) || colNonempty gr n)

/-- The headers the dynamic scan appends for one column name: the name
once per matching substring (a name matching two substrings is appended
twice by the nested loops). -/
def matchedFor (name : String) : List String :=
  (quantities.filter (fun q => strContainsSub q name)).map (fun _ => name)

/-- All headers the dynamic scan appends, in source column order. -/
def matchedHeaders (gr : Sheet) : List String :=
  ((gr.cols.map Prod.fst).map matchedFor).flatten

/-! Concrete scenario sheets used by the closed theorems and
witnesses. -/

/-- Overview sheet of the end-to-end scenario. -/
def ovA : Sheet := ⟨[("Sample", [Cell.str "A1"]), ("Date", [Cell.str "2024-01-01"]),
  ("Film", [Cell.str "GaN"]), ("Substrate", [Cell.str "Si"]),
  ("Substrate T", [Cell.str "700"]), ("Carrier Gas", [Cell.str "N2"]),
  ("Growth Time", [Cell.str "120"])]⟩

/-- GrowthRun sheet with a matching column name but zero rows (what a
GrowthRun sheet with headers and no data rows loads as). -/
def grEmptyCol : Sheet := ⟨[("Ga Bubbler Material", [])]⟩

/-- GrowthRun sheet with no column name matching any scanned substring. -/
def grNoMatch : Sheet := ⟨[("Temperature", [Cell.num 700])]⟩

/-- GrowthRun sheet with one matching, non-empty column. -/
def grMatched : Sheet := ⟨[("TMGa Bubbler Material", [Cell.str "TMGa"])]⟩

/-- AFMReflectanceSEM sheet of the scenario. -/
def afmA : Sheet := ⟨[("Thickness", [Cell.str "600"])]⟩

/-- HRXRD sheet of the scenario. -/
def hxA : Sheet := ⟨[("Phase", [Cell.str "cubic"])]⟩

/-- SampleCut sheet of the scenario. -/
def scA : Sheet := ⟨[("Collaborator", [Cell.str "X"])]⟩

/-- Header list the assembler produces for `grEmptyCol` (13 entries). -/
def hs7 : List String :=
  ["Sample", "Date", "Film", "Substrate", "Substrate T", "Carrier Gas", "Growth Time",
   "Thickness", "Growth Rate", "Ga Bubbler Material", "Phase", "Collaborator", "Notes"]

/-- Value list the assembler produces for `grEmptyCol` (12 entries: the
matched empty column contributed a header but no value). -/
def ds7 : List Cell :=
  [Cell.str "A1", Cell.str "2024-01-01", Cell.str "GaN", Cell.str "Si", Cell.str "700",
   Cell.str "N2", Cell.str "120", Cell.str "600", Cell.str "put calc here",
   Cell.str "cubic", Cell.str "X", Cell.str "put notes here"]

/-- Header list the assembler produces for `grMatched` (13 entries). -/
def hsW : List String :=
  ["Sample", "Date", "Film", "Substrate", "Substrate T", "Carrier Gas", "Growth Time",
   "Thickness", "Growth Rate", "TMGa Bubbler Material", "Phase", "Collaborator", "Notes"]

/-- Value list the assembler produces for `grMatched` (13 entries). -/
def dsW : List Cell :=
  [Cell.str "A1", Cell.str "2024-01-01", Cell.str "GaN", Cell.str "Si", Cell.str "700",
   Cell.str "N2", Cell.str "120", Cell.str "600", Cell.str "put calc here",
   Cell.str "TMGa", Cell.str "cubic", Cell.str "X", Cell.str "put notes here"]

/-- The record the end-to-end scenario persists (before merging). -/
def rec8 : Record :=
  [("Sample", Cell.str "A1"), ("Date", Cell.str "2024-01-01"), ("Film", Cell.str "GaN"),
   ("Substrate", Cell.str "Si"), ("Substrate T", Cell.str "700"),
   ("Carrier Gas", Cell.str "N2"), ("Growth Time", Cell.str "120"),
   ("Thickness", Cell.str "600"), ("Growth Rate", Cell.num 5),
   ("Phase", Cell.str "cubic"), ("Collaborator", Cell.str "X"),
   ("Notes", Cell.str "put notes here")]

/-- A record with numeric Thickness and Growth Time strings, used to
witness the derived-metric theorems. -/
def recNum : Record :=
  [("Sample", Cell.str "A1"), ("Thickness", Cell.str "600"),
   ("Growth Time", Cell.str "120"), ("Growth Rate", Cell.str "put calc here")]

/-- A record whose Thickness is the sentinel `"empty"`, used to witness
the non-numeric frame theorems. -/
def recNonNum : Record :=
  [("Sample", Cell.str "A1"), ("Thickness", Cell.str "empty"),
   ("Growth Time", Cell.str "120"), ("Growth Rate", Cell.str "put calc here")]

/-- A record whose Thickness is the Unicode numeric "½": `isnumeric`
accepts it but `pd.to_numeric` raises on it. -/
def recHalf : Record :=
  [("Sample", Cell.str "A1"), ("Thickness", Cell.str "½"),
   ("Growth Time", Cell.str "120"), ("Growth Rate", Cell.str "put calc here")]

/-! Helper lemmas shared by the claim theorems. -/

theorem strIsNumeric_of_allDecimalDigits (s : String) (h : allDecimalDigits s = true) :
    strIsNumeric s = true := by
  unfold allDecimalDigits at h
  unfold strIsNumeric
  obtain ⟨h1, h2⟩ := Bool.and_eq_true_iff.mp h
  refine Bool.and_eq_true_iff.mpr ⟨h1, ?_⟩
  rw [List.all_eq_true] at h2 ⊢
  intro c hc
  simp [h2 c hc]

theorem setField_getField_same (r : Record) (k : String) (v : Cell) :
    getField (setField r k v) k = some v := by
  induction r with
  | nil => simp [setField, getField, List.find?]
  | cons a l ih =>
    by_cases ha : a.1 = k
    · simp [setField, ha, getField, List.find?]
    · simpa [setField, ha, getField, List.find?] using ih

theorem setField_getField_other (r : Record) (k k' : String) (v : Cell) (hk : k' ≠ k) :
    getField (setField r k v) k' = getField r k' := by
  induction r with
  | nil =>
    unfold setField getField
    rw [List.find?_cons_of_neg _ (by simp [Ne.symm hk])]
  | cons a l ih =>
    simp only [setField]
    by_cases ha : a.1 = k
    · rw [if_pos ha]
      unfold getField
      rw [List.find?_cons_of_neg _ (by simp [Ne.symm hk]),
          List.find?_cons_of_neg _ (by simp [ha, Ne.symm hk])]
    · rw [if_neg ha]
      by_cases ha' : a.1 = k'
      · unfold getField
        rw [List.find?_cons_of_pos _ (by simp [ha']),
            List.find?_cons_of_pos _ (by simp [ha'])]
      · unfold getField
        rw [List.find?_cons_of_neg _ (by simp [ha']),
            List.find?_cons_of_neg _ (by simp [ha'])]
        exact ih

theorem fill_column_length (s s' : List Cell) (sheet : Sheet) (h : String)
    (hres : fill_column s sheet h = some s') : s'.length = s.length + 1 := by
  unfold fill_column at hres
  cases hcol : lookupCol sheet h with
  | none => rw [hcol] at hres; cases hres
  | some col =>
    rw [hcol] at hres
    cases col with
    | nil =>
      simp only [Option.some.injEq] at hres
      subst hres; simp
    | cons c rest =>
      simp only at hres
      split at hres <;> (simp only [Option.some.injEq] at hres; subst hres; simp)

theorem foldlM_fill_column_length (sheet : Sheet) :
    ∀ (names : List String) (s d : List Cell),
      names.foldlM (fun s h => fill_column s sheet h) s = some d →
      d.length = s.length + names.length := by
  intro names
  induction names with
  | nil =>
    intro s d h
    simp only [List.foldlM, Option.pure_def, Option.some.injEq] at h
    subst h; simp
  | cons n rest ih =>
    intro s d h
    simp only [List.foldlM, bind, Option.bind_eq_some] at h
    obtain ⟨s', hs', hrest⟩ := h
    have h1 := fill_column_length s s' sheet n hs'
    have h2 := ih s' d hrest
    simp only [List.length_cons]
    omega

theorem scanQuantity_no_match (gr : Sheet) (n : String) (acc : List String × List Cell)
    (q : String) (hq : strContainsSub q n = false) :
    scanQuantity gr n acc q = acc := by
  unfold scanQuantity
  rw [hq]
  simp

theorem scanQuantity_fst (gr : Sheet) (n : String) (acc : List String × List Cell)
    (q : String) (hq : strContainsSub q n = true) :
    (scanQuantity gr n acc q).1 = acc.1 ++ [n] := by
  unfold scanQuantity
  rw [hq]
  simp only [if_true]
  cases hcol : lookupCol gr n with
  | none => rfl
  | some col => cases col <;> rfl

theorem scanQuantity_snd_nonempty (gr : Sheet) (n : String) (acc : List String × List Cell)
    (q : String) (hq : strContainsSub q n = true) (c : Cell) (cs : List Cell)
    (hcol : lookupCol gr n = some (c :: cs)) :
    (scanQuantity gr n acc q).2 = acc.2 ++ [c] := by
  unfold scanQuantity
  rw [hq, hcol]
  rfl

theorem foldl_scanQuantity_fst (gr : Sheet) (n : String) :
    ∀ (qs : List String) (acc : List String × List Cell),
      (qs.foldl (scanQuantity gr n) acc).1 =
        acc.1 ++ (qs.filter (fun q => strContainsSub q n)).map (fun _ => n) := by
  intro qs
  induction qs with
  | nil => intro acc; simp
  | cons q rest ih =>
    intro acc
    simp only [List.foldl_cons]
    by_cases hq : strContainsSub q n = true
    · rw [ih, scanQuantity_fst gr n acc q hq]
      simp [List.filter_cons, hq]
    · rw [ih, scanQuantity_no_match gr n acc q (by simpa using hq)]
      simp [List.filter_cons, hq]

theorem foldl_scanQuantity_snd_nonempty (gr : Sheet) (n : String) (c : Cell) (cs : List Cell)
    (hcol : lookupCol gr n = some (c :: cs)) :
    ∀ (qs : List String) (acc : List String × List Cell),
      (qs.foldl (scanQuantity gr n) acc).2.length =
        acc.2.length + (qs.filter (fun q => strContainsSub q n)).length := by
  intro qs
  induction qs with
  | nil => intro acc; simp
  | cons q rest ih =>
    intro acc
    simp only [List.foldl_cons]
    by_cases hq : strContainsSub q n = true
    · rw [ih, scanQuantity_snd_nonempty gr n acc q hq c cs hcol]
      simp [List.filter_cons, hq]
      omega
    · rw [ih, scanQuantity_no_match gr n acc q (by simpa using hq)]
      simp [List.filter_cons, hq]

theorem foldl_scanQuantity_all_no_match (gr : Sheet) (n : String) :
    ∀ (qs : List String) (acc : List String × List Cell),
      (∀ q ∈ qs, strContainsSub q n = false) →
      qs.foldl (scanQuantity gr n) acc = acc := by
  intro qs
  induction qs with
  | nil => intro acc _; rfl
  | cons q rest ih =>
    intro acc hall
    simp only [List.foldl_cons]
    rw [scanQuantity_no_match gr n acc q (hall q (by simp))]
    exact ih acc (fun q' hq' => hall q' (by simp [hq']))

theorem scanStep_fst (gr : Sheet) (acc : List String × List Cell) (n : String) :
    (scanStep gr acc n).1 = acc.1 ++ matchedFor n :=
  foldl_scanQuantity_fst gr n quantities acc

theorem scanStep_snd_length (gr : Sheet) (acc : List String × List Cell) (n : String)
    (h : (!(quantities.any (fun q => strContainsSub q n)) || colNonempty gr n) = true) :
    (scanStep gr acc n).2.length = acc.2.length + (matchedFor n).length := by
  rcases Bool.or_eq_true_iff.mp h with h | h
  · have hall : ∀ q ∈ quantities, strContainsSub q n = false := by
      intro q hq
      by_contra hc
      have : (quantities.any (fun q => strContainsSub q n)) = true :=
        List.any_eq_true.mpr ⟨q, hq, by simpa using hc⟩
      rw [this] at h
      cases h
    unfold scanStep
    rw [foldl_scanQuantity_all_no_match gr n quantities acc hall]
    have : matchedFor n = [] := by
      unfold matchedFor
      rw [List.filter_eq_nil_iff.mpr (fun q hq => by simp [hall q hq])]
      rfl
    rw [this]
    simp
  · unfold colNonempty at h
    split at h
    · rename_i c cs hcol
      unfold scanStep matchedFor
      rw [foldl_scanQuantity_snd_nonempty gr n c cs hcol quantities acc]
      simp
    · cases h

theorem scan_fst (gr : Sheet) :
    ∀ (names : List String) (acc : List String × List Cell),
      (names.foldl (scanStep gr) acc).1 = acc.1 ++ (names.map matchedFor).flatten := by
  intro names
  induction names with
  | nil => intro acc; simp
  | cons n rest ih =>
    intro acc
    simp only [List.foldl_cons]
    rw [ih, scanStep_fst]
    simp

theorem scan_snd_length (gr : Sheet) :
    ∀ (names : List String) (acc : List String × List Cell),
      (∀ n ∈ names, (!(quantities.any (fun q => strContainsSub q n)) || colNonempty gr n) = true) →
      (names.foldl (scanStep gr) acc).2.length =
        acc.2.length + (names.map matchedFor).flatten.length := by
  intro names
  induction names with
  | nil => intro acc _; simp
  | cons n rest ih =>
    intro acc hall
    simp only [List.foldl_cons]
    rw [ih (scanStep gr acc n) (fun n' hn' => hall n' (by simp [hn'])),
        scanStep_snd_length gr acc n (hall n (by simp))]
    simp
    omega

theorem setField_append_of_not_mem (d : Record) (k : String) (v : Cell)
    (h : ∀ p ∈ d, p.1 ≠ k) : setField d k v = d ++ [(k, v)] := by
  induction d with
  | nil => rfl
  | cons a l ih =>
    have ha : a.1 ≠ k := h a (by simp)
    simp only [setField, if_neg ha, List.cons_append, List.cons.injEq, true_and]
    exact ih (fun p hp => h p (by simp [hp]))

theorem summaryDict_foldl_eq_append :
    ∀ (pairs : List (String × Cell)) (d : Record),
      (d.map Prod.fst ++ pairs.map Prod.fst).Nodup →
      pairs.foldl (fun d p => setField d p.1 p.2) d = d ++ pairs := by
  intro pairs
  induction pairs with
  | nil => intro d _; simp
  | cons a rest ih =>
    intro d h
    have hdisj : (d.map Prod.fst).Disjoint ((a :: rest).map Prod.fst) :=
      List.disjoint_of_nodup_append h
    have hnotmem : ∀ p ∈ d, p.1 ≠ a.1 := by
      intro p hp hpa
      exact hdisj (List.mem_map_of_mem Prod.fst hp) (by simp [hpa])
    simp only [List.foldl_cons]
    rw [setField_append_of_not_mem d a.1 a.2 hnotmem]
    have hnodup : ((d ++ [(a.1, a.2)]).map Prod.fst ++ rest.map Prod.fst).Nodup := by
      simpa [List.map_append, List.append_assoc] using h
    have := ih (d ++ [(a.1, a.2)]) hnodup
    simpa [List.append_assoc] using this

theorem summaryDict_eq_self (pairs : List (String × Cell))
    (h : (pairs.map Prod.fst).Nodup) : summaryDict pairs = pairs := by
  have := summaryDict_foldl_eq_append pairs [] (by simpa using h)
  simpa [summaryDict] using this

theorem zip_map_fst_take :
    ∀ (l1 : List String) (l2 : List Cell), (l1.zip l2).map Prod.fst = l1.take l2.length := by
  intro l1
  induction l1 with
  | nil => intro l2; simp
  | cons a t ih =>
    intro l2
    cases l2 with
    | nil => simp
    | cons b u => simp [List.zip_cons_cons, ih]

theorem zip_map_snd_take :
    ∀ (l1 : List String) (l2 : List Cell), (l1.zip l2).map Prod.snd = l2.take l1.length := by
  intro l1
  induction l1 with
  | nil => intro l2; simp
  | cons a t ih =>
    intro l2
    cases l2 with
    | nil => simp
    | cons b u => simp [List.zip_cons_cons, ih]

/-! The claim theorems. -/

/-- C1: merge policy of `generate_overview` (script.py lines 112-121): with
no prior summary file the final table holds only the new record; with a
prior summary whose column count equals the new record's header count the
final table is the prior rows followed by the new record, prior rows first;
with a differing column count all prior rows are discarded and only the new
record remains. -/
theorem C1_merge_policy (newRecord : Record) (n : Nat) (t : SummaryTable) :
    mergeSummary newRecord n none = [newRecord] ∧
    (t.numCols = n → mergeSummary newRecord n (some t) = t.rows ++ [newRecord]) ∧
    (t.numCols ≠ n → mergeSummary newRecord n (some t) = [newRecord]) := by
  refine ⟨rfl, fun h => ?_, fun h => ?_⟩ <;> simp [mergeSummary, h]

/-- C1 witness: the three branches of the merge policy evaluated at concrete
records. -/
theorem C1_merge_policy_witness :
    mergeSummary [("Sample", Cell.str "A1")] 1 none = [[("Sample", Cell.str "A1")]] ∧
    mergeSummary [("Sample", Cell.str "A1")] 1
        (some ⟨1, [[("Sample", Cell.str "A0")]]⟩) =
      [[("Sample", Cell.str "A0")], [("Sample", Cell.str "A1")]] ∧
    mergeSummary [("Sample", Cell.str "A1")] 2
        (some ⟨1, [[("Sample", Cell.str "A0")]]⟩) = [[("Sample", Cell.str "A1")]] :=
  ⟨(C1_merge_policy [("Sample", Cell.str "A1")] 1 ⟨1, [[("Sample", Cell.str "A0")]]⟩).1,
   (C1_merge_policy [("Sample", Cell.str "A1")] 1 ⟨1, [[("Sample", Cell.str "A0")]]⟩).2.1 rfl,
   (C1_merge_policy [("Sample", Cell.str "A1")] 2 ⟨1, [[("Sample", Cell.str "A0")]]⟩).2.2
     (by decide)⟩

/-- C2 counterexample: `fill_column` on a sheet WITHOUT the requested column
is an error (`none`, modelling the KeyError that `sheet[header]` raises in
script.py line 23), not the sentinel "empty" — refuting the part of the
claim that says an absent column yields "empty" and never raises. -/
theorem C2_absent_column_raises :
    fill_column [] (Sheet.mk []) "Sample" = none := rfl

/-- C2 amended: for a PRESENT column, `fill_column` appends the sentinel
"empty" whenever the column has zero rows or its first cell is null, and
never fails in those cases; an absent column instead raises (KeyError). -/
theorem C2_present_empty_cases (s : List Cell) (sheet : Sheet) (h : String) (col : List Cell)
    (hcol : lookupCol sheet h = some col)
    (hc : col = [] ∨ col.head? = some Cell.null) :
    fill_column s sheet h = some (s ++ [Cell.str "empty"]) := by
  unfold fill_column
  rw [hcol]
  rcases hc with hc | hc
  · subst hc; rfl
  · cases col with
    | nil => cases hc
    | cons c rest =>
      have hcnull : c = Cell.null := by simpa using hc
      subst hcnull
      simp [cellIsNull]

/-- C2 witness: a zero-row column and a null-first-cell column both yield
the sentinel without failing. -/
theorem C2_present_empty_cases_witness :
    fill_column [] (Sheet.mk [("Sample", [])]) "Sample" = some [Cell.str "empty"] ∧
    fill_column [] (Sheet.mk [("Sample", [Cell.null, Cell.str "x"])]) "Sample" =
      some [Cell.str "empty"] :=
  ⟨C2_present_empty_cases [] (Sheet.mk [("Sample", [])]) "Sample" [] rfl (Or.inl rfl),
   C2_present_empty_cases [] (Sheet.mk [("Sample", [Cell.null, Cell.str "x"])]) "Sample"
     [Cell.null, Cell.str "x"] rfl (Or.inr rfl)⟩

/-- C3 counterexample: a column whose FIRST cell is the non-null string "a"
but whose second cell is null yields the sentinel "empty", not "a": the
`isnull().values.any()` check of script.py line 24 consults the whole
column, refuting the claim that the first cell alone decides the outcome. -/
theorem C3_first_cell_not_decisive :
    fill_column [] (Sheet.mk [("Phase", [Cell.str "a", Cell.null])]) "Phase" =
      some [Cell.str "empty"] := by decide

/-- C3 amended: `fill_column` appends the string presentation of the first
cell exactly when the column is present, non-empty and NO cell anywhere in
it is null; when any cell of the column (not only the first) is null it
appends the sentinel "empty" instead. -/
theorem C3_first_cell_string (s : List Cell) (sheet : Sheet) (h : String)
    (c : Cell) (rest : List Cell)
    (hcol : lookupCol sheet h = some (c :: rest)) :
    (((c :: rest).any cellIsNull) = false →
      fill_column s sheet h = some (s ++ [Cell.str (cellStr c)])) ∧
    (((c :: rest).any cellIsNull) = true →
      fill_column s sheet h = some (s ++ [Cell.str "empty"])) := by
  unfold fill_column
  rw [hcol]
  constructor <;> intro hn <;> simp [hn]

/-- C3 witness: an all-non-null column yields the string of its first cell;
a column with a later null yields the sentinel. -/
theorem C3_first_cell_string_witness :
    fill_column [] (Sheet.mk [("Phase", [Cell.str "cubic"])]) "Phase" =
      some [Cell.str "cubic"] ∧
    fill_column [] (Sheet.mk [("Phase", [Cell.str "a", Cell.null])]) "Phase" =
      some [Cell.str "empty"] :=
  ⟨(C3_first_cell_string [] (Sheet.mk [("Phase", [Cell.str "cubic"])]) "Phase"
      (Cell.str "cubic") [] rfl).1 (by decide),
   (C3_first_cell_string [] (Sheet.mk [("Phase", [Cell.str "a", Cell.null])]) "Phase"
      (Cell.str "a") [Cell.null] rfl).2 (by decide)⟩

/-- C4: when Thickness and Growth Time are all-decimal-digit strings with
Growth Time nonzero, `fill_calculated_cell` sets the Growth Rate field of
the single row to Thickness divided by Growth Time. -/
theorem C4_growth_rate (r : Record) (t g : String)
    (ht : getField r "Thickness" = some (Cell.str t))
    (hg : getField r "Growth Time" = some (Cell.str g))
    (htn : allDecimalDigits t = true) (hgn : allDecimalDigits g = true)
    (hgz : digitsToNat g ≠ 0) :
    fill_calculated_cell r =
      some (setField r "Growth Rate"
        (Cell.num ((digitsToNat t : ℚ) / (digitsToNat g : ℚ)))) ∧
    getField (setField r "Growth Rate"
        (Cell.num ((digitsToNat t : ℚ) / (digitsToNat g : ℚ)))) "Growth Rate" =
      some (Cell.num ((digitsToNat t : ℚ) / (digitsToNat g : ℚ))) := by
  have htn' := strIsNumeric_of_allDecimalDigits t htn
  have hgn' := strIsNumeric_of_allDecimalDigits g hgn
  constructor
  · simp [fill_calculated_cell, ht, hg, cellIsNumeric, htn', hgn', cellToNumeric, htn, hgn]
  · exact setField_getField_same r "Growth Rate" _

/-- C4 witness: Thickness "600" over Growth Time "120" gives Growth Rate 5. -/
theorem C4_growth_rate_witness :
    fill_calculated_cell recNum =
      some (setField recNum "Growth Rate"
        (Cell.num ((digitsToNat "600" : ℚ) / (digitsToNat "120" : ℚ)))) ∧
    getField (setField recNum "Growth Rate"
        (Cell.num ((digitsToNat "600" : ℚ) / (digitsToNat "120" : ℚ)))) "Growth Rate" =
      some (Cell.num ((digitsToNat "600" : ℚ) / (digitsToNat "120" : ℚ))) :=
  C4_growth_rate recNum "600" "120" (by decide) (by decide) (by decide) (by decide) (by decide)

/-- C5 counterexample: Thickness "½" is not an all-decimal-digit string, yet
the call does not return the record unchanged: "½" passes Python
`isnumeric`, so line 47 executes and `pd.to_numeric` raises ValueError
(`none`) — refuting the claim that every record with a non-all-digit value
comes back unchanged. -/
theorem C5_isnumeric_crash_cex :
    allDecimalDigits "½" = false ∧ fill_calculated_cell recHalf = none :=
  ⟨rfl, rfl⟩

/-- C5 amended: with string Thickness and Growth Time values, if at least
one FAILS Python `isnumeric` (all ordinary non-numeric strings, including
the sentinel "empty" and decimal strings like "1.5"), the record is
returned unchanged and the Growth Rate placeholder persists; if both pass
`isnumeric` but at least one is not all decimal digits (a Unicode numeric
such as "½"), `pd.to_numeric` raises instead, so the call fails rather
than returning the record. -/
theorem C5_non_numeric_cases (r : Record) (t g : String)
    (ht : getField r "Thickness" = some (Cell.str t))
    (hg : getField r "Growth Time" = some (Cell.str g)) :
    ((strIsNumeric t = false ∨ strIsNumeric g = false) →
      fill_calculated_cell r = some r) ∧
    (strIsNumeric t = true → strIsNumeric g = true →
      (allDecimalDigits t && allDecimalDigits g) = false →
      fill_calculated_cell r = none) := by
  constructor
  · intro hn
    rcases hn with hn | hn
    · simp [fill_calculated_cell, ht, cellIsNumeric, hn]
    · cases htn : strIsNumeric t with
      | false => simp [fill_calculated_cell, ht, cellIsNumeric, htn]
      | true => simp [fill_calculated_cell, ht, hg, cellIsNumeric, htn, hn]
  · intro htn hgn had
    cases hat : allDecimalDigits t with
    | false =>
      simp [fill_calculated_cell, ht, hg, cellIsNumeric, htn, hgn, cellToNumeric, hat]
    | true =>
      have hag : allDecimalDigits g = false := by
        rw [hat] at had
        simpa using had
      simp [fill_calculated_cell, ht, hg, cellIsNumeric, htn, hgn, cellToNumeric, hat, hag]

/-- C5 witness: Thickness "empty" leaves the record untouched; Thickness
"½" (with Growth Time "120") makes the call fail. -/
theorem C5_non_numeric_cases_witness :
    fill_calculated_cell recNonNum = some recNonNum ∧
    fill_calculated_cell recHalf = none :=
  ⟨(C5_non_numeric_cases recNonNum "empty" "120" (by decide) (by decide)).1
     (Or.inl (by decide)),
   (C5_non_numeric_cases recHalf "½" "120" (by decide) (by decide)).2
     (by decide) (by decide) (by decide)⟩

/-- C7: a GrowthRun column named "Ga Bubbler Material" with zero rows makes
the dynamic scan append the header with no paired value: the assembled
header list (13 entries, containing that name) is strictly longer than the
value list (12 entries). -/
theorem C7_scan_desync :
    assemble ovA grEmptyCol afmA hxA scA = some (hs7, ds7) ∧
    hs7.length = ds7.length + 1 ∧ "Ga Bubbler Material" ∈ hs7 := by
  refine ⟨by decide, rfl, by decide⟩

/-- C8: the end-to-end scenario: Sample "A1", Date "2024-01-01", Growth Time
"120", Thickness "600", no matching GrowthRun columns, Phase "cubic",
Collaborator "X" produce a row with those values, Growth Rate 5, and Notes
"put notes here". -/
theorem C8_end_to_end :
    runPipeline ovA grNoMatch afmA hxA scA = some rec8 ∧
    getField rec8 "Sample" = some (Cell.str "A1") ∧
    getField rec8 "Date" = some (Cell.str "2024-01-01") ∧
    getField rec8 "Growth Time" = some (Cell.str "120") ∧
    getField rec8 "Thickness" = some (Cell.str "600") ∧
    getField rec8 "Growth Rate" = some (Cell.num 5) ∧
    getField rec8 "Phase" = some (Cell.str "cubic") ∧
    getField rec8 "Collaborator" = some (Cell.str "X") ∧
    getField rec8 "Notes" = some (Cell.str "put notes here") := by
  refine ⟨?_, by decide, by decide, by decide, by decide, by decide, by decide, by decide,
    by decide⟩
  have hdiv : ((digitsToNat "600" : ℚ) / (digitsToNat "120" : ℚ)) = (5 : ℚ) := by
    rw [show digitsToNat "600" = 600 from by decide,
        show digitsToNat "120" = 120 from by decide]
    norm_num
  have h0 : runPipeline ovA grNoMatch afmA hxA scA =
      some [("Sample", Cell.str "A1"), ("Date", Cell.str "2024-01-01"),
        ("Film", Cell.str "GaN"), ("Substrate", Cell.str "Si"),
        ("Substrate T", Cell.str "700"), ("Carrier Gas", Cell.str "N2"),
        ("Growth Time", Cell.str "120"), ("Thickness", Cell.str "600"),
        ("Growth Rate", Cell.num ((digitsToNat "600" : ℚ) / (digitsToNat "120" : ℚ))),
        ("Phase", Cell.str "cubic"), ("Collaborator", Cell.str "X"),
        ("Notes", Cell.str "put notes here")] := rfl
  rw [h0, hdiv]
  rfl

/-- C9: when the header list is longer than the value list, the dict
comprehension pairs positionally and truncates at the shorter list: the
persisted record's keys are exactly the first |values| headers, its values
are all the values (each shifted onto an earlier header), and every dropped
trailing header is absent from the record; nothing errors. -/
theorem C9_truncation (hsL : List String) (dsL : List Cell)
    (hnd : hsL.Nodup) (hlt : dsL.length < hsL.length) :
    (summaryDict (hsL.zip dsL)).map Prod.fst = hsL.take dsL.length ∧
    (summaryDict (hsL.zip dsL)).map Prod.snd = dsL ∧
    ∀ h ∈ hsL.drop dsL.length, h ∉ (summaryDict (hsL.zip dsL)).map Prod.fst := by
  have hkeys : (hsL.zip dsL).map Prod.fst = hsL.take dsL.length := zip_map_fst_take hsL dsL
  have hknd : ((hsL.zip dsL).map Prod.fst).Nodup := by
    rw [hkeys]
    exact hnd.sublist (List.take_sublist dsL.length hsL)
  have heq : summaryDict (hsL.zip dsL) = hsL.zip dsL := summaryDict_eq_self _ hknd
  refine ⟨by rw [heq, hkeys], ?_, ?_⟩
  · rw [heq, zip_map_snd_take]
    exact List.take_of_length_le (le_of_lt hlt)
  · intro h hdrop hmem
    rw [heq, hkeys] at hmem
    have hsplit : hsL.take dsL.length ++ hsL.drop dsL.length = hsL :=
      List.take_append_drop dsL.length hsL
    have hnd' : (hsL.take dsL.length ++ hsL.drop dsL.length).Nodup := by
      rw [hsplit]; exact hnd
    exact (List.disjoint_of_nodup_append hnd') hmem hdrop

/-- C9 witness: three distinct headers zipped with two values keep the first
two headers and drop the third. -/
theorem C9_truncation_witness :
    (summaryDict ((["Sample", "Date", "Film"]).zip
        [Cell.str "A1", Cell.str "2024-01-01"])).map Prod.fst =
      (["Sample", "Date", "Film"]).take 2 ∧
    (summaryDict ((["Sample", "Date", "Film"]).zip
        [Cell.str "A1", Cell.str "2024-01-01"])).map Prod.snd =
      [Cell.str "A1", Cell.str "2024-01-01"] ∧
    ∀ h ∈ (["Sample", "Date", "Film"]).drop 2,
      h ∉ (summaryDict ((["Sample", "Date", "Film"]).zip
        [Cell.str "A1", Cell.str "2024-01-01"])).map Prod.fst :=
  C9_truncation ["Sample", "Date", "Film"] [Cell.str "A1", Cell.str "2024-01-01"]
    (by decide) (by decide)

/-- C10: `fill_calculated_cell` modifies at most the Growth Rate field: when
it returns a record, every field other than "Growth Rate" is unchanged, in
both the numeric and the non-numeric branch. -/
theorem C10_frame (r r' : Record) (hres : fill_calculated_cell r = some r')
    (k : String) (hk : k ≠ "Growth Rate") :
    getField r' k = getField r k := by
  cases ht : getField r "Thickness" with
  | none => simp [fill_calculated_cell, ht] at hres
  | some t =>
    cases t with
    | null => simp [fill_calculated_cell, ht, cellIsNumeric] at hres
    | num q => simp [fill_calculated_cell, ht, cellIsNumeric] at hres
    | str ts =>
      cases htn : strIsNumeric ts with
      | false =>
        simp [fill_calculated_cell, ht, cellIsNumeric, htn] at hres
        subst hres
        rfl
      | true =>
        cases hg : getField r "Growth Time" with
        | none =>
          simp [fill_calculated_cell, ht, cellIsNumeric, htn, hg] at hres
        | some g =>
          cases g with
          | null => simp [fill_calculated_cell, ht, cellIsNumeric, htn, hg] at hres
          | num q => simp [fill_calculated_cell, ht, cellIsNumeric, htn, hg] at hres
          | str gs =>
            cases hgn : strIsNumeric gs with
            | false =>
              simp [fill_calculated_cell, ht, cellIsNumeric, htn, hg, hgn] at hres
              subst hres
              rfl
            | true =>
              cases hat : allDecimalDigits ts with
              | false =>
                simp [fill_calculated_cell, ht, cellIsNumeric, htn, hg, hgn,
                  cellToNumeric, hat] at hres
              | true =>
                cases hag : allDecimalDigits gs with
                | false =>
                  simp [fill_calculated_cell, ht, cellIsNumeric, htn, hg, hgn,
                    cellToNumeric, hat, hag] at hres
                | true =>
                  simp [fill_calculated_cell, ht, cellIsNumeric, htn, hg, hgn,
                    cellToNumeric, hat, hag] at hres
                  subst hres
                  exact setField_getField_other r "Growth Rate" k _ hk

/-- C10 witness: after the numeric branch fires on `recNum`, the Sample
field is untouched. -/
theorem C10_frame_witness :
    getField [("Sample", Cell.str "A1"), ("Thickness", Cell.str "600"),
      ("Growth Time", Cell.str "120"),
      ("Growth Rate", Cell.num ((digitsToNat "600" : ℚ) / (digitsToNat "120" : ℚ)))]
      "Sample" = getField recNum "Sample" :=
  C10_frame recNum
    [("Sample", Cell.str "A1"), ("Thickness", Cell.str "600"),
      ("Growth Time", Cell.str "120"),
      ("Growth Rate", Cell.num ((digitsToNat "600" : ℚ) / (digitsToNat "120" : ℚ)))]
    rfl "Sample" (by decide)

/-- C6: when every GrowthRun column whose name matches a scanned substring
is non-empty and assembly succeeds, the header and value lists have equal
length and the headers are, in order: the seven Overview fields, Thickness
and Growth Rate, the matched GrowthRun column names in source order, then
Phase, Collaborator, Notes. -/
theorem C6_assemble_shape (overview gr afm hrxrd scut : Sheet)
    (hs : List String) (ds : List Cell)
    (hne : matchedNonempty gr = true)
    (hres : assemble overview gr afm hrxrd scut = some (hs, ds)) :
    hs.length = ds.length ∧
    hs = baseHeaders ++ ["Thickness", "Growth Rate"] ++ matchedHeaders gr ++
      ["Phase", "Collaborator", "Notes"] := by
  unfold assemble at hres
  simp only [bind, Option.bind_eq_some] at hres
  obtain ⟨d0, hd0, hres⟩ := hres
  obtain ⟨d1, hd1, hres⟩ := hres
  obtain ⟨d4, hd4, hres⟩ := hres
  obtain ⟨d5, hd5, hres⟩ := hres
  simp only [Option.some.injEq, Prod.mk.injEq] at hres
  obtain ⟨hhs, hds⟩ := hres
  have hall : ∀ n ∈ gr.cols.map Prod.fst,
      (!(quantities.any (fun q => strContainsSub q n)) || colNonempty gr n) = true := by
    unfold matchedNonempty at hne
    exact List.all_eq_true.mp hne
  have h0 : d0.length = 7 := by
    have := foldlM_fill_column_length overview baseHeaders [] d0 hd0
    simpa using this
  have h1 : d1.length = 8 := by
    have := fill_column_length d0 d1 afm "Thickness" hd1
    omega
  have hfst := scan_fst gr (gr.cols.map Prod.fst)
    (baseHeaders ++ ["Thickness", "Growth Rate"], d1 ++ [Cell.str "put calc here"])
  have hsnd := scan_snd_length gr (gr.cols.map Prod.fst)
    (baseHeaders ++ ["Thickness", "Growth Rate"], d1 ++ [Cell.str "put calc here"]) hall
  have h4 := fill_column_length _ d4 hrxrd "Phase" hd4
  have h5 := fill_column_length d4 d5 scut "Collaborator" hd5
  constructor
  · subst hhs
    subst hds
    simp only [List.length_append, List.length_cons, List.length_nil]
    rw [hfst]
    simp only [List.length_append] at hsnd ⊢
    have eb : baseHeaders.length = 7 := rfl
    have et : (["Thickness", "Growth Rate"] : List String).length = 2 := rfl
    have ec : ([Cell.str "put calc here"] : List Cell).length = 1 := rfl
    omega
  · rw [← hhs, hfst]
    simp [matchedHeaders, List.append_assoc]

/-- C6 witness: the concrete scenario with one matched, non-empty GrowthRun
column has 13 headers and 13 values in the stated order. -/
theorem C6_assemble_shape_witness :
    hsW.length = dsW.length ∧
    hsW = baseHeaders ++ ["Thickness", "Growth Rate"] ++ matchedHeaders grMatched ++
      ["Phase", "Collaborator", "Notes"] :=
  C6_assemble_shape ovA grMatched afmA hxA scA hsW dsW (by decide) (by decide)


end MOVPE
